import Mathlib

/-!
# Romodoro: session / timer state machine and its store

A shallow embedding of `database.go` (the store) and `models.go` (the
controller and the countdown) of the Romodoro focus timer.

Conventions of the embedding

* Go `int` is modelled by `Int`.  The only text that reaches `strconv.Atoi`
  comes from a text input whose `CharLimit` is 3, so every parsed value lies in
  `[-99, 999]` and no arithmetic of the program can leave the 64-bit range.
* `time.Time` is a `Nat` (a logical timestamp); a nullable `*time.Time` is an
  `Option Nat`.
* A Go pointer that may be `nil` is an `Option`; dereferencing `nil` panics,
  which the controller functions report by returning `none`.
* The database handle is the value of type `DB` it gives access to.  Every
  statement sent to the database may fail; whether it does is an input (`ok`),
  and a statement that fails leaves the database as it was.
* Everything the outside world decides during one call of `Update` is gathered
  in an `Env`: the clock (`time.Now()` is read once per call), the outcome of
  each database statement, and what the text input widget holds after it has
  processed the key.
* `playSound` starts a goroutine that plays a sound; the model counts the calls.
-/

namespace Romodoro

/-! ## database.go -/

/-- The error values the store can hand back. -/
inductive DBError where
  | storage
  | ErrNoRows
  deriving DecidableEq, Repr

/-- Go struct `Session`; also the shape of a row of table `sessions`. -/
structure Session where
  ID : Int
  Name : String
  StartTime : Nat
  EndTime : Option Nat
  TotalFocusSeconds : Int
  TotalRestSeconds : Int
  deriving DecidableEq, Repr

/-- Go struct `PomodoroSplit`; also the shape of a row of table `pomodoro_splits`. -/
structure PomodoroSplit where
  ID : Int
  SessionID : Int
  FocusMinutes : Int
  RestMinutes : Int
  StartTime : Nat
  EndTime : Option Nat
  Status : String
  ActualFocusSeconds : Int
  ActualRestSeconds : Int
  deriving DecidableEq, Repr

/-- The two tables created by `InitDB`, in rowid order, each with the counter
SQLite keeps for an `AUTOINCREMENT` key (the largest rowid ever handed out). -/
structure DB where
  sessions : List Session
  pomodoro_splits : List PomodoroSplit
  sessions_seq : Int
  pomodoro_splits_seq : Int
  deriving DecidableEq, Repr

/-- `InitDB` on a fresh file: both tables exist and are empty. -/
def InitDB : DB :=
  { sessions := [], pomodoro_splits := [], sessions_seq := 0, pomodoro_splits_seq := 0 }

/-- `CreateSession`: one `INSERT` (start = end = now, totals defaulted to 0),
then `LastInsertId`. -/
def CreateSession (db : DB) (name : String) (now : Nat) (okExec okId : Bool) :
    DB × Except DBError Session :=
  if okExec then
    let id := db.sessions_seq + 1
    let row : Session :=
      { ID := id, Name := name, StartTime := now, EndTime := some now,
        TotalFocusSeconds := 0, TotalRestSeconds := 0 }
    let db1 := { db with sessions := db.sessions ++ [row], sessions_seq := id }
    if okId then
      (db1, .ok { ID := id, Name := name, StartTime := now, EndTime := some now,
                  TotalFocusSeconds := 0, TotalRestSeconds := 0 })
    else (db1, .error .storage)
  else (db, .error .storage)

/-- The rows of `sessions` in the order of `ORDER BY start_time DESC`
(rows with equal start times keep their rowid order). -/
def sessionsByStartDesc (db : DB) : List Session :=
  db.sessions.insertionSort (fun a b => b.StartTime ≤ a.StartTime)

/-- `GetLastSession`: the first row by start time descending, or an error
(`sql.ErrNoRows` when the table is empty). -/
def GetLastSession (db : DB) (ok : Bool) : Except DBError Session :=
  if ok then
    match sessionsByStartDesc db with
    | [] => .error .ErrNoRows
    | s :: _ => .ok s
  else .error .storage

/-- `GetAllSessions`: every row, most recent first. -/
def GetAllSessions (db : DB) (ok : Bool) : Except DBError (List Session) :=
  if ok then .ok (sessionsByStartDesc db) else .error .storage

/-- `DeleteSession`: two separate statements, the splits first and then the
session row; the first error is returned. -/
def DeleteSession (db : DB) (sessionID : Int) (ok1 ok2 : Bool) : DB × Option DBError :=
  if ok1 then
    let db1 := { db with
      pomodoro_splits := db.pomodoro_splits.filter (fun sp => sp.SessionID ≠ sessionID) }
    if ok2 then
      ({ db1 with sessions := db1.sessions.filter (fun s => s.ID ≠ sessionID) }, none)
    else (db1, some .storage)
  else (db, some .storage)

/-- `CreatePomodoroSplit`: one `INSERT` (status and actual seconds defaulted),
then `LastInsertId`. -/
def CreatePomodoroSplit (db : DB) (sessionID focusMinutes restMinutes : Int) (now : Nat)
    (okExec okId : Bool) : DB × Except DBError PomodoroSplit :=
  if okExec then
    let id := db.pomodoro_splits_seq + 1
    let row : PomodoroSplit :=
      { ID := id, SessionID := sessionID, FocusMinutes := focusMinutes,
        RestMinutes := restMinutes, StartTime := now, EndTime := none,
        Status := "in_progress", ActualFocusSeconds := 0, ActualRestSeconds := 0 }
    let db1 := { db with pomodoro_splits := db.pomodoro_splits ++ [row],
                         pomodoro_splits_seq := id }
    if okId then
      (db1, .ok { ID := id, SessionID := sessionID, FocusMinutes := focusMinutes,
                  RestMinutes := restMinutes, StartTime := now, EndTime := none,
                  Status := "in_progress", ActualFocusSeconds := 0,
                  ActualRestSeconds := 0 })
    else (db1, .error .storage)
  else (db, .error .storage)

/-- `UpdatePomodoroSplit`: overwrite end time, status and actual seconds of the
rows whose id is the split's. -/
def UpdatePomodoroSplit (db : DB) (split : PomodoroSplit) (ok : Bool) : DB × Option DBError :=
  if ok then
    ({ db with pomodoro_splits := db.pomodoro_splits.map (fun row =>
        if row.ID = split.ID then
          { row with EndTime := split.EndTime, Status := split.Status,
                     ActualFocusSeconds := split.ActualFocusSeconds,
                     ActualRestSeconds := split.ActualRestSeconds }
        else row) }, none)
  else (db, some .storage)

/-- `COALESCE(SUM(actual_focus_seconds), 0)` over the splits of a session. -/
def sumFocus (db : DB) (sessionID : Int) : Int :=
  ((db.pomodoro_splits.filter (fun sp => sp.SessionID = sessionID)).map
    (fun sp => sp.ActualFocusSeconds)).sum

/-- `COALESCE(SUM(actual_rest_seconds), 0)` over the splits of a session. -/
def sumRest (db : DB) (sessionID : Int) : Int :=
  ((db.pomodoro_splits.filter (fun sp => sp.SessionID = sessionID)).map
    (fun sp => sp.ActualRestSeconds)).sum

/-- `UpdateSessionTotals`: one `UPDATE` that stamps the end time and recomputes
both totals from the split rows. -/
def UpdateSessionTotals (db : DB) (sessionID : Int) (now : Nat) (ok : Bool) :
    DB × Option DBError :=
  if ok then
    ({ db with sessions := db.sessions.map (fun row =>
        if row.ID = sessionID then
          { row with EndTime := some now,
                     TotalFocusSeconds := sumFocus db sessionID,
                     TotalRestSeconds := sumRest db sessionID }
        else row) }, none)
  else (db, some .storage)

/-- `CloseSession`: stamp the end time of the session row. -/
def CloseSession (db : DB) (sessionID : Int) (now : Nat) (ok : Bool) : DB × Option DBError :=
  if ok then
    ({ db with sessions := db.sessions.map (fun row =>
        if row.ID = sessionID then { row with EndTime := some now } else row) }, none)
  else (db, some .storage)

/-! ## strconv.Atoi -/

/-- The decimal digits of `strconv.Atoi`, most significant first; any other
character is an error. -/
def atoiDigits : List Char → Nat → Option Nat
  | [], n => some n
  | c :: cs, n =>
    if 48 ≤ c.toNat ∧ c.toNat ≤ 57 then atoiDigits cs (n * 10 + (c.toNat - 48)) else none

/-- Go `strconv.Atoi`: an optional sign, then at least one decimal digit and
nothing else; a value outside the 64-bit range is an error as well.
`none` stands for `err != nil`. -/
def Atoi (s : String) : Option Int :=
  let body (cs : List Char) (neg : Bool) : Option Int :=
    match cs with
    | [] => none
    | _ =>
      match atoiDigits cs 0 with
      | none => none
      | some n =>
        let v : Int := if neg then -(n : Int) else (n : Int)
        if -9223372036854775808 ≤ v ∧ v ≤ 9223372036854775807 then some v else none
  match s.data with
  | [] => none
  | c :: cs =>
    if c = '-' then body cs true
    else if c = '+' then body cs false
    else body (c :: cs) false

/-! ## models.go -/

inductive AppState where
  | StateMainMenu
  | StateTimerSetup
  | StateTimer
  | StatePaused
  | StateSessionBrowser
  deriving DecidableEq, Repr

inductive TimerPhase where
  | PhaseFocus
  | PhaseRest
  deriving DecidableEq, Repr

export AppState (StateMainMenu StateTimerSetup StateTimer StatePaused StateSessionBrowser)
export TimerPhase (PhaseFocus PhaseRest)

/-- The part of the text input widget the controller reads and writes. -/
structure TextInput where
  Placeholder : String
  value : String
  CharLimit : Nat
  Width : Int
  deriving DecidableEq, Repr

/-- `textinput.Model.SetValue`: the text, cut to `CharLimit` characters. -/
def TextInput.SetValue (ti : TextInput) (s : String) : TextInput :=
  { ti with value := if ti.CharLimit > 0 then ⟨s.data.take ti.CharLimit⟩ else s }

/-- `textinput.Model.Value`. -/
def TextInput.Value (ti : TextInput) : String := ti.value

/-- Go struct `App`.  `db` is the database behind the handle; `sounds` counts
the calls of `playSound`. -/
structure App where
  db : DB
  state : AppState
  session : Option Session
  currentSplit : Option PomodoroSplit
  phase : TimerPhase
  totalSeconds : Int
  remainingSeconds : Int
  isPaused : Bool
  textInput : TextInput
  progressWidth : Int
  focusInput : String
  restInput : String
  inputStep : Int
  sessions : List Session
  selectedSession : Int
  width : Int
  height : Int
  sounds : Nat
  deriving DecidableEq, Repr

/-- The messages `Update` distinguishes; a key message carries `msg.String()`. -/
inductive Msg where
  | WindowSizeMsg (Width Height : Int)
  | KeyMsg (key : String)
  | TickMsg
  deriving DecidableEq, Repr

/-- The commands `Update` returns: `nil`, `tea.Quit`, `textinput.Blink`, the
one-second `tea.Tick` of `tickCmd`, and whatever the text input asks for. -/
inductive Cmd where
  | nil
  | Quit
  | Blink
  | Tick
  | widget
  deriving DecidableEq, Repr

/-- The statements the program sends to the database. -/
inductive Stmt where
  | insertSession
  | insertSessionId
  | selectLastSession
  | selectAllSessions
  | deleteSplits
  | deleteSession
  | insertSplit
  | insertSplitId
  | updateSplit
  | updateTotals
  | closeSession
  | selectSession
  deriving DecidableEq, Repr

/-- What the outside world decides during one call of `Update`: the clock, the
outcome of each statement (each is sent at most once per call), and the text
the input widget holds after it has handled the key. -/
structure Env where
  now : Nat
  ok : Stmt → Bool
  typed : String

/-- `textinput.Model.Update`: the widget edits its text, within `CharLimit`. -/
def TextInput.Update (ti : TextInput) (env : Env) : TextInput × Cmd :=
  (ti.SetValue env.typed, Cmd.widget)

def NewApp (db : DB) : App :=
  { db := db
    state := StateMainMenu
    session := none
    currentSplit := none
    phase := PhaseFocus
    totalSeconds := 0
    remainingSeconds := 0
    isPaused := false
    textInput := { Placeholder := "Enter focus time in minutes...", value := "",
                   CharLimit := 3, Width := 20 }
    progressWidth := 60
    focusInput := ""
    restInput := ""
    inputStep := 0
    sessions := []
    selectedSession := 0
    width := 0
    height := 0
    sounds := 0 }

/-- `time.Now().Format(...)` behind the `Session_` of a generated name. -/
def sessionName (now : Nat) : String := "Session_" ++ toString now

def tickCmd : Cmd := Cmd.Tick

def playSound (m : App) : App := { m with sounds := m.sounds + 1 }

/-- The three lines that end most handlers: state, placeholder, empty input. -/
def toFocusPrompt (m : App) : App :=
  { m with state := StateTimerSetup,
           textInput := ({ m.textInput with
             Placeholder := "Enter focus time in minutes..." }).SetValue "" }

def createNewSession (m : App) (env : Env) : Option (App × Cmd) :=
  match CreateSession m.db (sessionName env.now) env.now
      (env.ok .insertSession) (env.ok .insertSessionId) with
  | (db1, .error _) => some ({ m with db := db1 }, Cmd.Quit)
  | (db1, .ok session) =>
    some (toFocusPrompt { m with db := db1, session := some session }, Cmd.Blink)

def loadSessionBrowser (m : App) (env : Env) : Option (App × Cmd) :=
  match GetAllSessions m.db (env.ok .selectAllSessions) with
  | .error _ => some (m, Cmd.Quit)
  | .ok sessions =>
    some ({ m with sessions := sessions, selectedSession := 0,
                   state := StateSessionBrowser }, Cmd.nil)

def updateMainMenu (m : App) (key : String) (env : Env) : Option (App × Cmd) :=
  if key = "1" then
    match GetLastSession m.db (env.ok .selectLastSession) with
    | .error _ => createNewSession m env
    | .ok session => some (toFocusPrompt { m with session := some session }, Cmd.Blink)
  else if key = "2" then loadSessionBrowser m env
  else if key = "3" then createNewSession m env
  else some (m, Cmd.nil)

def startTimer (m : App) (env : Env) : Option (App × Cmd) :=
  match Atoi m.focusInput with
  | none =>
    some ({ m with inputStep := 0, textInput := ({ m.textInput with
      Placeholder := "Invalid focus time. Enter focus time in minutes..." }).SetValue "" },
      Cmd.Blink)
  | some focusMinutes =>
    if focusMinutes ≤ 0 then
      some ({ m with inputStep := 0, textInput := ({ m.textInput with
        Placeholder := "Invalid focus time. Enter focus time in minutes..." }).SetValue "" },
        Cmd.Blink)
    else
      match Atoi m.restInput with
      | none =>
        some ({ m with inputStep := 1, textInput := ({ m.textInput with
          Placeholder := "Invalid rest time. Enter rest time in minutes..." }).SetValue "" },
          Cmd.Blink)
      | some restMinutes =>
        if restMinutes < 0 then
          some ({ m with inputStep := 1, textInput := ({ m.textInput with
            Placeholder := "Invalid rest time. Enter rest time in minutes..." }).SetValue "" },
            Cmd.Blink)
        else
          match m.session with
          | none => none
          | some session =>
            match CreatePomodoroSplit m.db session.ID focusMinutes restMinutes env.now
                (env.ok .insertSplit) (env.ok .insertSplitId) with
            | (db1, .error _) => some ({ m with db := db1 }, Cmd.Quit)
            | (db1, .ok split) =>
              some ({ m with db := db1, currentSplit := some split, phase := PhaseFocus,
                             totalSeconds := focusMinutes * 60,
                             remainingSeconds := focusMinutes * 60,
                             state := StateTimer, isPaused := false,
                             inputStep := 0, focusInput := "", restInput := "" }, tickCmd)

def updateTimerSetup (m : App) (key : String) (env : Env) : Option (App × Cmd) :=
  if key = "enter" then
    if m.inputStep = 0 then
      some ({ m with focusInput := m.textInput.Value, inputStep := 1,
                     textInput := ({ m.textInput with
                       Placeholder := "Enter rest time in minutes..." }).SetValue "" },
            Cmd.Blink)
    else
      startTimer { m with restInput := m.textInput.Value } env
  else if key = "m" ∨ key = "M" then
    some ({ m with state := StateMainMenu }, Cmd.nil)
  else
    let r := m.textInput.Update env
    some ({ m with textInput := r.1 }, r.2)

def saveCurrentState (m : App) (env : Env) : Option App :=
  match m.currentSplit with
  | none => some m
  | some split =>
    let split1 := { split with EndTime := some env.now, Status := "cancelled" }
    let split2 :=
      if m.phase = PhaseFocus then
        { split1 with ActualFocusSeconds := m.totalSeconds - m.remainingSeconds }
      else
        { split1 with ActualFocusSeconds := split1.FocusMinutes * 60,
                      ActualRestSeconds := m.totalSeconds - m.remainingSeconds }
    let db1 := (UpdatePomodoroSplit m.db split2 (env.ok .updateSplit)).1
    match m.session with
    | none => none
    | some session =>
      let db2 := (UpdateSessionTotals db1 session.ID env.now (env.ok .updateTotals)).1
      some { m with currentSplit := some split2, db := db2 }

def refreshSessionData (m : App) (env : Env) : App :=
  match m.session with
  | none => m
  | some session =>
    if env.ok .selectSession then
      match m.db.sessions.find? (fun row => row.ID = session.ID) with
      | none => m
      | some row => { m with session := some row }
    else m

def updateTimer (m : App) (key : String) (env : Env) : Option (App × Cmd) :=
  if key = "p" ∨ key = "P" then
    some ({ m with state := StatePaused, isPaused := true }, Cmd.nil)
  else if key = "b" ∨ key = "B" then
    match saveCurrentState m env with
    | none => none
    | some m1 => some (toFocusPrompt (refreshSessionData m1 env), Cmd.Blink)
  else if key = "m" ∨ key = "M" then
    match saveCurrentState m env with
    | none => none
    | some m1 => some ({ m1 with state := StateMainMenu }, Cmd.nil)
  else some (m, Cmd.nil)

def updatePaused (m : App) (key : String) (env : Env) : Option (App × Cmd) :=
  if key = "s" ∨ key = "S" ∨ key = "c" ∨ key = "C" then
    some ({ m with state := StateTimer, isPaused := false }, tickCmd)
  else if key = "b" ∨ key = "B" then
    match saveCurrentState m env with
    | none => none
    | some m1 => some (toFocusPrompt (refreshSessionData m1 env), Cmd.Blink)
  else if key = "m" ∨ key = "M" then
    match saveCurrentState m env with
    | none => none
    | some m1 => some ({ m1 with state := StateMainMenu }, Cmd.nil)
  else some (m, Cmd.nil)

def updateSessionBrowser (m : App) (key : String) (env : Env) : Option (App × Cmd) :=
  if key = "up" ∨ key = "k" then
    if m.selectedSession > 0 then
      some ({ m with selectedSession := m.selectedSession - 1 }, Cmd.nil)
    else some (m, Cmd.nil)
  else if key = "down" ∨ key = "j" then
    if m.selectedSession < (m.sessions.length : Int) - 1 then
      some ({ m with selectedSession := m.selectedSession + 1 }, Cmd.nil)
    else some (m, Cmd.nil)
  else if key = "x" ∨ key = "X" then
    if m.sessions.length > 0 then
      if m.selectedSession < 0 then none
      else
        match m.sessions.get? m.selectedSession.toNat with
        | none => none
        | some selected =>
          match DeleteSession m.db selected.ID (env.ok .deleteSplits) (env.ok .deleteSession) with
          | (db1, some _) => some ({ m with db := db1 }, Cmd.nil)
          | (db1, none) => loadSessionBrowser { m with db := db1 } env
    else some (m, Cmd.nil)
  else if key = "b" ∨ key = "B" ∨ key = "m" ∨ key = "M" then
    some ({ m with state := StateMainMenu }, Cmd.nil)
  else some (m, Cmd.nil)

def finishSplit (m : App) (env : Env) : Option App :=
  match m.currentSplit with
  | none => none
  | some split =>
    let split1 := { split with EndTime := some env.now, Status := "completed" }
    let db1 := (UpdatePomodoroSplit m.db split1 (env.ok .updateSplit)).1
    match m.session with
    | none => none
    | some session =>
      let db2 := (UpdateSessionTotals db1 session.ID env.now (env.ok .updateTotals)).1
      let m1 := { m with currentSplit := some split1, db := db2 }
      match GetLastSession db2 (env.ok .selectLastSession) with
      | .error _ => some m1
      | .ok last => if last.ID = session.ID then some { m1 with session := some last } else some m1

def updateTick (m : App) (env : Env) : Option (App × Cmd) :=
  let m0 := { m with remainingSeconds := m.remainingSeconds - 1 }
  if m0.remainingSeconds ≤ 0 then
    match m0.currentSplit with
    | none => none
    | some split =>
      if m0.phase = PhaseFocus then
        let split1 := { split with ActualFocusSeconds := m0.totalSeconds }
        some (playSound { m0 with currentSplit := some split1, phase := PhaseRest,
                                  totalSeconds := split1.RestMinutes * 60,
                                  remainingSeconds := split1.RestMinutes * 60 }, tickCmd)
      else
        let split1 := { split with ActualRestSeconds := m0.totalSeconds }
        match finishSplit { m0 with currentSplit := some split1 } env with
        | none => none
        | some m1 => some (toFocusPrompt (playSound m1), Cmd.Blink)
  else some (m0, tickCmd)

def Update (m : App) (msg : Msg) (env : Env) : Option (App × Cmd) :=
  match msg with
  | .WindowSizeMsg w h =>
    some ({ m with width := w, height := h, progressWidth := min 60 (w - 4) }, Cmd.nil)
  | .KeyMsg key =>
    if key = "ctrl+c" ∨ key = "q" then
      match m.session with
      | none => some (m, Cmd.Quit)
      | some _ =>
        match saveCurrentState m env with
        | none => none
        | some m1 =>
          match m1.session with
          | none => none
          | some session =>
            some ({ m1 with db := (CloseSession m1.db session.ID env.now
                                    (env.ok .closeSession)).1 }, Cmd.Quit)
    else
      match m.state with
      | StateMainMenu => updateMainMenu m key env
      | StateTimerSetup => updateTimerSetup m key env
      | StateTimer => updateTimer m key env
      | StatePaused => updatePaused m key env
      | StateSessionBrowser => updateSessionBrowser m key env
  | .TickMsg =>
    if m.state = StateTimer ∧ ¬ m.isPaused then updateTick m env else some (m, Cmd.nil)

/-! ## Running the controller -/

/-- The program loop: messages are handled one at a time, to completion; a
panic ends the run with `none`; after `tea.Quit` nothing more is handled. -/
def run (m : App) : List (Msg × Env) → Option App
  | [] => some m
  | (msg, env) :: rest =>
    match Update m msg env with
    | none => none
    | some (m1, Cmd.Quit) => some m1
    | some (m1, _) => run m1 rest

/-- One tick message for each environment. -/
def tickMsgs (envs : List Env) : List (Msg × Env) :=
  envs.map (fun e => (Msg.TickMsg, e))

/-- An environment in which every statement succeeds. -/
def okEnv (now : Nat) (typed : String) : Env :=
  { now := now, ok := fun _ => true, typed := typed }

/-- A key press handled at time `now`; `typed` is what the text input holds
afterwards if the key reaches it. -/
def key (k : String) (typed : String) (now : Nat) : Msg × Env :=
  (Msg.KeyMsg k, okEnv now typed)

/-- Ticks `n` times, every statement succeeding. -/
def ticks (n : Nat) (now : Nat) : List (Msg × Env) :=
  tickMsgs (List.replicate n (okEnv now ""))

/-- From the main menu: new session, type the focus text, enter, type the rest
text, enter. -/
def planKeys (focus rest : String) : List (Msg × Env) :=
  [key "3" "" 1, key focus focus 2, key "enter" focus 2, key rest rest 3, key "enter" rest 3]

/-- What the claims read off a split row: id, status, actual focus and rest seconds. -/
def splitFacts (db : DB) : List (Int × String × Int × Int) :=
  db.pomodoro_splits.map
    (fun row => (row.ID, row.Status, row.ActualFocusSeconds, row.ActualRestSeconds))

/-- What the claims read off a session row: id and the two totals. -/
def sessionFacts (db : DB) : List (Int × Int × Int) :=
  db.sessions.map (fun row => (row.ID, row.TotalFocusSeconds, row.TotalRestSeconds))

/-! ## Properties of the store -/

/-- The store has a row for split `id`, and every row with that id carries
this status and these actual seconds. -/
def Stored (db : DB) (id : Int) (status : String) (focus rest : Int) : Prop :=
  (∃ row ∈ db.pomodoro_splits, row.ID = id) ∧
  ∀ row ∈ db.pomodoro_splits, row.ID = id →
    row.Status = status ∧ row.ActualFocusSeconds = focus ∧ row.ActualRestSeconds = rest

instance (db : DB) (id : Int) (status : String) (focus rest : Int) :
    Decidable (Stored db id status focus rest) := by
  unfold Stored; infer_instance

/-- Every session row carries the sums of the actual seconds of its splits. -/
def TotalsConsistent (db : DB) : Prop :=
  ∀ s ∈ db.sessions,
    s.TotalFocusSeconds = sumFocus db s.ID ∧ s.TotalRestSeconds = sumRest db s.ID

instance (db : DB) : Decidable (TotalsConsistent db) := by
  unfold TotalsConsistent; infer_instance

/-- Every split row is within its plan. -/
def WithinPlan (db : DB) : Prop :=
  ∀ row ∈ db.pomodoro_splits,
    row.ActualFocusSeconds ≤ row.FocusMinutes * 60 ∧
    row.ActualRestSeconds ≤ row.RestMinutes * 60

instance (db : DB) : Decidable (WithinPlan db) := by
  unfold WithinPlan; infer_instance

/-- A store with two sessions, the first with two splits, the second with one. -/
def sampleDB : DB :=
  { sessions :=
      [ { ID := 1, Name := "a", StartTime := 10, EndTime := some 20,
          TotalFocusSeconds := 90, TotalRestSeconds := 5 },
        { ID := 2, Name := "b", StartTime := 30, EndTime := some 40,
          TotalFocusSeconds := 60, TotalRestSeconds := 0 } ]
    pomodoro_splits :=
      [ { ID := 1, SessionID := 1, FocusMinutes := 1, RestMinutes := 1, StartTime := 10,
          EndTime := some 15, Status := "completed", ActualFocusSeconds := 60,
          ActualRestSeconds := 5 },
        { ID := 2, SessionID := 2, FocusMinutes := 1, RestMinutes := 0, StartTime := 30,
          EndTime := some 40, Status := "completed", ActualFocusSeconds := 60,
          ActualRestSeconds := 0 },
        { ID := 3, SessionID := 1, FocusMinutes := 2, RestMinutes := 1, StartTime := 16,
          EndTime := some 20, Status := "cancelled", ActualFocusSeconds := 30,
          ActualRestSeconds := 0 } ]
    sessions_seq := 2
    pomodoro_splits_seq := 3 }

/-! ## States and predicates the theorems speak of -/

/-- The state the tick that ends the focus phase leaves. -/
def focusDone (m : App) (sp : PomodoroSplit) : App :=
  playSound { m with
    currentSplit := some { sp with ActualFocusSeconds := m.totalSeconds }
    phase := PhaseRest
    totalSeconds := sp.RestMinutes * 60
    remainingSeconds := sp.RestMinutes * 60 }

/-- The split `saveCurrentState` writes. -/
def cancelledSplit (m : App) (sp : PomodoroSplit) (now : Nat) : PomodoroSplit :=
  if m.phase = PhaseFocus then
    { sp with EndTime := some now, Status := "cancelled",
              ActualFocusSeconds := m.totalSeconds - m.remainingSeconds }
  else
    { sp with EndTime := some now, Status := "cancelled",
              ActualFocusSeconds := sp.FocusMinutes * 60,
              ActualRestSeconds := m.totalSeconds - m.remainingSeconds }

/-- An interruption: an optional pause key, then a back or menu key. -/
def IsInterrupt (msgs : List (Msg × Env)) : Prop :=
  ∃ pause ik e,
    msgs = pause ++ [(Msg.KeyMsg ik, e)] ∧
    (pause = [] ∨ ∃ ep, pause = [(Msg.KeyMsg "p", ep)] ∨ pause = [(Msg.KeyMsg "P", ep)]) ∧
    (ik = "b" ∨ ik = "B" ∨ ik = "m" ∨ ik = "M") ∧
    e.ok .updateSplit = true

/-- The split `finishSplit` writes at the end of the rest phase. -/
def completedSplit (m : App) (sp : PomodoroSplit) (now : Nat) : PomodoroSplit :=
  { sp with ActualRestSeconds := m.totalSeconds, EndTime := some now, Status := "completed" }

/-- What `startTimer` needs to start a split of plan `(f, r)` in session `s`:
the session is set, the two pending texts parse to `f` and `r`, and the insert
succeeds. -/
def CanStart (m : App) (env : Env) (s : Session) (f r : Int) : Prop :=
  m.session = some s ∧ Atoi m.focusInput = some f ∧ Atoi m.restInput = some r ∧
  env.ok .insertSplit = true ∧ env.ok .insertSplitId = true

instance (m : App) (env : Env) (s : Session) (f r : Int) : Decidable (CanStart m env s f r) := by
  unfold CanStart; infer_instance

/-- The row `CreatePomodoroSplit` inserts, which is also the struct it returns. -/
def newSplit (db : DB) (sessionID f r : Int) (now : Nat) : PomodoroSplit :=
  { ID := db.pomodoro_splits_seq + 1, SessionID := sessionID, FocusMinutes := f,
    RestMinutes := r, StartTime := now, EndTime := none, Status := "in_progress",
    ActualFocusSeconds := 0, ActualRestSeconds := 0 }

/-- The state `startTimer` leaves when it starts a split. -/
def started (m : App) (env : Env) (s : Session) (f r : Int) : App :=
  { m with
    db := { m.db with
      pomodoro_splits := m.db.pomodoro_splits ++ [newSplit m.db s.ID f r env.now]
      pomodoro_splits_seq := m.db.pomodoro_splits_seq + 1 }
    currentSplit := some (newSplit m.db s.ID f r env.now)
    phase := PhaseFocus
    totalSeconds := f * 60
    remainingSeconds := f * 60
    state := StateTimer
    isPaused := false
    inputStep := 0
    focusInput := ""
    restInput := "" }

/-- The text parses as an integer greater than 0. -/
def ValidFocus (t : String) : Prop :=
  match Atoi t with
  | some v => 0 < v
  | none => False

/-- The text parses as an integer that is at least 0. -/
def ValidRest (t : String) : Prop :=
  match Atoi t with
  | some v => 0 ≤ v
  | none => False

instance (t : String) : Decidable (ValidFocus t) := by
  unfold ValidFocus; split <;> infer_instance

instance (t : String) : Decidable (ValidRest t) := by
  unfold ValidRest; split <;> infer_instance

/-- A session as `CreateSession` returns it at time 1 on a fresh store. -/
def sampleSession : Session :=
  { ID := 1, Name := "Session_1", StartTime := 1, EndTime := some 1,
    TotalFocusSeconds := 0, TotalRestSeconds := 0 }

/-- The controller at the rest step of TimerSetup, in `sampleSession`, with the
two pending texts given. -/
def readyApp (focus rest : String) : App :=
  { NewApp { InitDB with sessions := [sampleSession], sessions_seq := 1 } with
    state := StateTimerSetup
    session := some sampleSession
    focusInput := focus
    restInput := rest
    inputStep := 1 }

/-! ## The browser and the timers -/

/-- The navigate-up, navigate-down and delete-selected keys of the browser. -/
def IsBrowserIntent (p : Msg × Env) : Prop :=
  p.1 = Msg.KeyMsg "up" ∨ p.1 = Msg.KeyMsg "k" ∨ p.1 = Msg.KeyMsg "down" ∨
  p.1 = Msg.KeyMsg "j" ∨ p.1 = Msg.KeyMsg "x" ∨ p.1 = Msg.KeyMsg "X"

instance (p : Msg × Env) : Decidable (IsBrowserIntent p) := by
  unfold IsBrowserIntent; infer_instance

/-- The selection index is within the session list: 0 when the list is empty,
between 0 and `len(sessions)-1` otherwise. -/
def SelectionInRange (m : App) : Prop :=
  if m.sessions = [] then m.selectedSession = 0
  else 0 ≤ m.selectedSession ∧ m.selectedSession ≤ (m.sessions.length : Int) - 1

instance (m : App) : Decidable (SelectionInRange m) := by
  unfold SelectionInRange; infer_instance

/-- The browser as `loadSessionBrowser` opens it on `sampleDB`. -/
def browserApp : App :=
  { NewApp sampleDB with
    sessions := sessionsByStartDesc sampleDB
    selectedSession := 0
    state := StateSessionBrowser }

/-- The controller together with the number of `tea.Tick` timers that a
returned `tickCmd` has started and that have not fired yet. -/
structure Scheduled where
  app : App
  pending : Nat

/-- One event of the program with its timers.  A tick message is the firing of
one pending timer (with no timer pending nothing happens); every message is
handled by `Update`, and a returned `tickCmd` starts one more timer. -/
def stepScheduled (s : Scheduled) (msg : Msg) (env : Env) : Option (Scheduled × Cmd) :=
  match msg with
  | .TickMsg =>
    if s.pending = 0 then some (s, Cmd.nil)
    else
      match Update s.app .TickMsg env with
      | none => none
      | some (m1, c) =>
        some ({ app := m1, pending := s.pending - 1 + (if c = Cmd.Tick then 1 else 0) }, c)
  | _ =>
    match Update s.app msg env with
    | none => none
    | some (m1, c) =>
      some ({ app := m1, pending := s.pending + (if c = Cmd.Tick then 1 else 0) }, c)

/-- The program loop of `run`, with the pending timers counted. -/
def runScheduled (s : Scheduled) : List (Msg × Env) → Option Scheduled
  | [] => some s
  | (msg, env) :: rest =>
    match stepScheduled s msg env with
    | none => none
    | some (s1, Cmd.Quit) => some s1
    | some (s1, _) => runScheduled s1 rest

/-! ## DeleteSession -/

theorem mem_sessionsByStartDesc (db : DB) (s : Session) :
    s ∈ sessionsByStartDesc db ↔ s ∈ db.sessions := by
  unfold sessionsByStartDesc
  exact (List.perm_insertionSort _ db.sessions).mem_iff

/-- C9.  After a successful `DeleteSession(id)` no split row has that session
id, `GetAllSessions` returns no session with that id, and the two tables are
exactly the old ones without the rows of that session: every other session and
every split of another session is still there, unchanged and in place. -/
theorem DeleteSession_removes_session (db : DB) (id : Int) (ok1 ok2 : Bool)
    (h : (DeleteSession db id ok1 ok2).2 = none) :
    (∀ sp ∈ (DeleteSession db id ok1 ok2).1.pomodoro_splits, sp.SessionID ≠ id) ∧
    (∀ ok l, GetAllSessions (DeleteSession db id ok1 ok2).1 ok = .ok l →
      ∀ s ∈ l, s.ID ≠ id) ∧
    (DeleteSession db id ok1 ok2).1.sessions = db.sessions.filter (fun s => s.ID ≠ id) ∧
    (DeleteSession db id ok1 ok2).1.pomodoro_splits =
      db.pomodoro_splits.filter (fun sp => sp.SessionID ≠ id) ∧
    (DeleteSession db id ok1 ok2).1.sessions_seq = db.sessions_seq ∧
    (DeleteSession db id ok1 ok2).1.pomodoro_splits_seq = db.pomodoro_splits_seq := by
  cases ok1 <;> cases ok2 <;> simp [DeleteSession] at h
  refine ⟨?_, ?_, ?_, ?_, ?_, ?_⟩
  · intro sp hsp
    simp [DeleteSession] at hsp
    exact hsp.2
  · intro ok l hl s hs
    cases ok <;> simp [GetAllSessions] at hl
    subst hl
    rw [mem_sessionsByStartDesc] at hs
    simp [DeleteSession] at hs
    exact hs.2
  all_goals simp [DeleteSession]

theorem DeleteSession_removes_session_witness :
    (∀ sp ∈ (DeleteSession sampleDB 1 true true).1.pomodoro_splits, sp.SessionID ≠ 1) ∧
    (∀ ok l, GetAllSessions (DeleteSession sampleDB 1 true true).1 ok = .ok l →
      ∀ s ∈ l, s.ID ≠ 1) ∧
    (DeleteSession sampleDB 1 true true).1.sessions =
      sampleDB.sessions.filter (fun s => s.ID ≠ 1) ∧
    (DeleteSession sampleDB 1 true true).1.pomodoro_splits =
      sampleDB.pomodoro_splits.filter (fun sp => sp.SessionID ≠ 1) ∧
    (DeleteSession sampleDB 1 true true).1.sessions_seq = sampleDB.sessions_seq ∧
    (DeleteSession sampleDB 1 true true).1.pomodoro_splits_seq =
      sampleDB.pomodoro_splits_seq :=
  DeleteSession_removes_session sampleDB 1 true true (by decide)

/-- C10, as stated, fails: when the second statement fails, `DeleteSession`
returns the error, yet the splits of the session are gone and the session row
is still there. -/
theorem DeleteSession_not_atomic :
    (DeleteSession sampleDB 1 true false).2 = some DBError.storage ∧
    (DeleteSession sampleDB 1 true false).1 ≠ sampleDB ∧
    (DeleteSession sampleDB 1 true false).1.sessions = sampleDB.sessions ∧
    (DeleteSession sampleDB 1 true false).1.pomodoro_splits.map (fun sp => sp.ID) = [2] := by
  decide

/-- C10, amended.  When `DeleteSession(id)` returns an error, the store is
unchanged if the first statement failed, and otherwise (the second statement
failed) it is the old store without the splits of the session and with nothing
else changed; the session table is untouched in both cases, so the session row
never goes while its splits stay. -/
theorem DeleteSession_error_splits_first (db : DB) (id : Int) (ok1 ok2 : Bool) (e : DBError)
    (h : (DeleteSession db id ok1 ok2).2 = some e) :
    (DeleteSession db id ok1 ok2).1 =
      (if ok1 then
        { db with pomodoro_splits :=
            db.pomodoro_splits.filter (fun sp => sp.SessionID ≠ id) }
      else db) ∧
    (DeleteSession db id ok1 ok2).1.sessions = db.sessions := by
  cases ok1 <;> cases ok2 <;> simp [DeleteSession] at h ⊢

theorem DeleteSession_error_splits_first_witness :
    (DeleteSession sampleDB 1 true false).1 =
      (if true then
        { sampleDB with pomodoro_splits :=
            sampleDB.pomodoro_splits.filter (fun sp => sp.SessionID ≠ 1) }
      else sampleDB) ∧
    (DeleteSession sampleDB 1 true false).1.sessions = sampleDB.sessions :=
  DeleteSession_error_splits_first sampleDB 1 true false DBError.storage (by decide)

/-! ## The controller on concrete runs -/

set_option maxRecDepth 1000000

/-- C1, as stated, fails for a plan without rest: with focus 1 and rest 0,
after the `1*60 + 0*60 = 60` ticks the controller is still running, in the rest
phase, and the split row is still `in_progress`; the 61st tick completes it. -/
theorem zero_rest_needs_one_more_tick :
    (run (NewApp InitDB) (planKeys "1" "0" ++ ticks (1 * 60 + 0 * 60) 5)).map
        (fun m => (m.state, m.phase, m.remainingSeconds, splitFacts m.db)) =
      some (StateTimer, PhaseRest, 0, [(1, "in_progress", 0, 0)]) ∧
    (run (NewApp InitDB) (planKeys "1" "0" ++ ticks (1 * 60 + 0 * 60 + 1) 5)).map
        (fun m => (m.state, splitFacts m.db)) =
      some (StateTimerSetup, [(1, "completed", 60, 0)]) :=
  ⟨rfl, rfl⟩

/-- C4 at its failing input: a split of plan (1, 1) that has run its 120 ticks
is stored as completed; the quit key then calls `saveCurrentState` on the split
still held in `currentSplit` and the stored status becomes cancelled. -/
theorem quit_after_completion_overwrites_status :
    (run (NewApp InitDB) (planKeys "1" "1" ++ ticks 120 5)).map
        (fun m => (m.state, splitFacts m.db)) =
      some (StateTimerSetup, [(1, "completed", 60, 60)]) ∧
    (run (NewApp InitDB) (planKeys "1" "1" ++ ticks 120 5 ++ [key "q" "" 9])).map
        (fun m => splitFacts m.db) =
      some [(1, "cancelled", 60, 60)] :=
  ⟨rfl, rfl⟩

/-- C5 at its failing input: a split of plan (1, 0) completes in session 1, the
user returns to the menu and opens session 2, then quits; the quit rewrites the
split of session 1 with one second of rest and refreshes the totals of session
2 only, so session 1 keeps totals (60, 0) over a split of (60, 1). -/
theorem quit_in_other_session_breaks_totals :
    (run (NewApp InitDB)
        (planKeys "1" "0" ++ ticks 61 5 ++ [key "m" "" 7, key "3" "" 8])).map
        (fun m => decide (TotalsConsistent m.db)) = some true ∧
    (run (NewApp InitDB)
        (planKeys "1" "0" ++ ticks 61 5 ++ [key "m" "" 7, key "3" "" 8, key "q" "" 9])).map
        (fun m => (sessionFacts m.db, splitFacts m.db, sumRest m.db 1,
          decide (TotalsConsistent m.db))) =
      some ([(1, 60, 0), (2, 0, 0)], [(1, "cancelled", 60, 1)], 1, false) :=
  ⟨rfl, rfl⟩

/-- C6 at its failing input: a split of plan (1, 0) completes on its 61st tick
with `remainingSeconds = -1`; the quit key then writes
`ActualRestSeconds = 0 - (-1) = 1`, above the planned `0 * 60`. -/
theorem quit_after_zero_rest_exceeds_plan :
    (run (NewApp InitDB) (planKeys "1" "0" ++ ticks 61 5)).map
        (fun m => (m.remainingSeconds, splitFacts m.db, decide (WithinPlan m.db))) =
      some (-1, [(1, "completed", 60, 0)], true) ∧
    (run (NewApp InitDB) (planKeys "1" "0" ++ ticks 61 5 ++ [key "q" "" 9])).map
        (fun m => (m.db.pomodoro_splits.map (fun row => row.RestMinutes), splitFacts m.db,
          decide (WithinPlan m.db))) =
      some ([0], [(1, "cancelled", 60, 1)], false) :=
  ⟨rfl, rfl⟩

/-- C7, as stated, fails at the focus step: the text `x` is no integer, yet
submitting it moves the controller on to the rest step. -/
theorem bad_focus_text_advances :
    Atoi "x" = none ∧
    (run (NewApp InitDB) [key "3" "" 1, key "x" "x" 2]).map
        (fun m => (m.state, m.inputStep, m.textInput.value)) =
      some (StateTimerSetup, 0, "x") ∧
    (run (NewApp InitDB) [key "3" "" 1, key "x" "x" 2, key "enter" "x" 3]).map
        (fun m => (m.state, m.inputStep, m.focusInput)) =
      some (StateTimerSetup, 1, "x") := by
  decide

/-- C8 at its failing input: the user submits a focus value, leaves the rest
step with the menu key and asks for a new session; the controller shows the
focus prompt but is at `inputStep = 1` with the old focus text still pending. -/
theorem menu_from_rest_step_keeps_step :
    (run (NewApp InitDB)
        [key "3" "" 1, key "5" "5" 2, key "enter" "5" 2, key "m" "" 3]).map
        (fun m => (m.state, m.inputStep)) = some (StateMainMenu, 1) ∧
    (run (NewApp InitDB)
        [key "3" "" 1, key "5" "5" 2, key "enter" "5" 2, key "m" "" 3, key "3" "" 4]).map
        (fun m => (m.state, m.inputStep, m.focusInput, m.textInput.Placeholder)) =
      some (StateTimerSetup, 1, "5", "Enter focus time in minutes...") ∧
    (run (NewApp InitDB)
        [key "3" "" 1, key "5" "5" 2, key "enter" "5" 2, key "m" "" 3, key "1" "" 4]).map
        (fun m => (m.state, m.inputStep, m.focusInput)) =
      some (StateTimerSetup, 1, "5") := by
  decide

/-! ## The countdown -/

theorem Update_tick_plain (m : App) (e : Env) (hs : m.state = StateTimer)
    (hp : m.isPaused = false) (hr : 1 < m.remainingSeconds) :
    Update m Msg.TickMsg e =
      some ({ m with remainingSeconds := m.remainingSeconds - 1 }, Cmd.Tick) := by
  have h : ¬ (m.remainingSeconds - 1 ≤ 0) := by omega
  simp [Update, updateTick, hs, hp, h, tickCmd]

theorem Update_tick_focus_end (m : App) (e : Env) (sp : PomodoroSplit)
    (hs : m.state = StateTimer) (hp : m.isPaused = false) (hr : m.remainingSeconds ≤ 1)
    (hph : m.phase = PhaseFocus) (hc : m.currentSplit = some sp) :
    Update m Msg.TickMsg e = some (focusDone m sp, Cmd.Tick) := by
  have h : m.remainingSeconds - 1 ≤ 0 := by omega
  simp [Update, updateTick, hs, hp, h, hph, hc, tickCmd, focusDone]

theorem run_countdown (envs : List Env) (rest : List (Msg × Env)) :
    ∀ m : App, m.state = StateTimer → m.isPaused = false →
      (envs.length : Int) < m.remainingSeconds →
      run m (tickMsgs envs ++ rest) =
        run { m with remainingSeconds := m.remainingSeconds - envs.length } rest := by
  induction envs with
  | nil => intro m _ _ _; simp [tickMsgs]
  | cons e es ih =>
    intro m hs hp hr
    simp only [List.length_cons, Nat.cast_add, Nat.cast_one] at hr
    have h1 : 1 < m.remainingSeconds := by omega
    simp only [tickMsgs, List.map_cons, List.cons_append, run, Update_tick_plain m e hs hp h1]
    have := ih { m with remainingSeconds := m.remainingSeconds - 1 } hs hp (by simp; omega)
    refine Eq.trans this ?_
    congr 2
    simp only [List.length_cons, Nat.cast_add, Nat.cast_one]
    omega

theorem run_focus_phase (envs : List Env) (rest : List (Msg × Env)) (sp : PomodoroSplit) :
    ∀ m : App, m.state = StateTimer → m.isPaused = false → m.phase = PhaseFocus →
      m.currentSplit = some sp → 0 < m.remainingSeconds →
      (envs.length : Int) = m.remainingSeconds →
      run m (tickMsgs envs ++ rest) = run (focusDone m sp) rest := by
  intro m hs hp hph hc hpos hlen
  obtain ⟨es, e, rfl⟩ : ∃ es e, envs = es ++ [e] := by
    rcases List.eq_nil_or_concat envs with h | ⟨es, e, h⟩
    · subst h; simp at hlen; omega
    · exact ⟨es, e, by simpa using h⟩
  simp only [List.length_append, List.length_singleton, Nat.cast_add, Nat.cast_one] at hlen
  have h1 : tickMsgs (es ++ [e]) ++ rest = tickMsgs es ++ ((Msg.TickMsg, e) :: rest) := by
    simp [tickMsgs]
  rw [h1, run_countdown es _ m hs hp (by omega)]
  have h2 := Update_tick_focus_end { m with remainingSeconds := m.remainingSeconds - es.length }
    e sp hs hp (by simp; omega) hph hc
  simp only [run, h2]
  rfl

theorem refreshSessionData_db (m : App) (e : Env) : (refreshSessionData m e).db = m.db := by
  unfold refreshSessionData
  split
  · rfl
  · split
    · split <;> rfl
    · rfl

theorem toFocusPrompt_db (m : App) : (toFocusPrompt m).db = m.db := rfl

theorem UpdateSessionTotals_splits (db : DB) (id : Int) (now : Nat) (ok : Bool) :
    (UpdateSessionTotals db id now ok).1.pomodoro_splits = db.pomodoro_splits := by
  cases ok <;> rfl

theorem Stored_congr {db1 db2 : DB} (h : db1.pomodoro_splits = db2.pomodoro_splits)
    (id : Int) (st : String) (a b : Int) : Stored db1 id st a b ↔ Stored db2 id st a b := by
  simp [Stored, h]

theorem Stored_UpdatePomodoroSplit (db : DB) (sp : PomodoroSplit)
    (h : ∃ row ∈ db.pomodoro_splits, row.ID = sp.ID) :
    Stored (UpdatePomodoroSplit db sp true).1 sp.ID sp.Status sp.ActualFocusSeconds
      sp.ActualRestSeconds := by
  obtain ⟨row, hrow, hid⟩ := h
  constructor
  · simp only [UpdatePomodoroSplit, if_true, List.mem_map]
    exact ⟨_, ⟨row, hrow, rfl⟩, by simp [hid]⟩
  · intro r hr hrid
    simp only [UpdatePomodoroSplit, if_true, List.mem_map] at hr
    obtain ⟨r0, _, rfl⟩ := hr
    by_cases h0 : r0.ID = sp.ID
    · simp [h0]
    · simp [h0] at hrid

theorem saveCurrentState_some (m : App) (e : Env) (sp : PomodoroSplit) (s : Session)
    (hc : m.currentSplit = some sp) (hs : m.session = some s) :
    saveCurrentState m e = some { m with
      currentSplit := some (cancelledSplit m sp e.now)
      db := (UpdateSessionTotals
        (UpdatePomodoroSplit m.db (cancelledSplit m sp e.now) (e.ok .updateSplit)).1
        s.ID e.now (e.ok .updateTotals)).1 } := by
  unfold saveCurrentState cancelledSplit
  simp only [hc, hs]

theorem Stored_saveCurrentState (m : App) (e : Env) (sp : PomodoroSplit) (s : Session)
    (hc : m.currentSplit = some sp) (hs : m.session = some s)
    (hok : e.ok .updateSplit = true) (hrow : ∃ row ∈ m.db.pomodoro_splits, row.ID = sp.ID) :
    ∃ m1, saveCurrentState m e = some m1 ∧
      Stored m1.db sp.ID "cancelled"
        (if m.phase = PhaseFocus then m.totalSeconds - m.remainingSeconds
          else sp.FocusMinutes * 60)
        (if m.phase = PhaseFocus then sp.ActualRestSeconds
          else m.totalSeconds - m.remainingSeconds) := by
  refine ⟨_, saveCurrentState_some m e sp s hc hs, ?_⟩
  rw [Stored_congr (UpdateSessionTotals_splits _ _ _ _), hok]
  have hid : (cancelledSplit m sp e.now).ID = sp.ID := by
    unfold cancelledSplit; split <;> rfl
  have h := Stored_UpdatePomodoroSplit m.db (cancelledSplit m sp e.now) (by rw [hid]; exact hrow)
  rw [hid] at h
  unfold cancelledSplit at h ⊢
  by_cases hph : m.phase = PhaseFocus <;> simpa [hph] using h

theorem Update_interrupt (m : App) (e : Env) (sp : PomodoroSplit) (s : Session) (ik : String)
    (hst : m.state = StateTimer ∨ m.state = StatePaused)
    (hc : m.currentSplit = some sp) (hs : m.session = some s)
    (hik : ik = "b" ∨ ik = "B" ∨ ik = "m" ∨ ik = "M")
    (hok : e.ok .updateSplit = true) (hrow : ∃ row ∈ m.db.pomodoro_splits, row.ID = sp.ID) :
    ∃ m1, run m [(Msg.KeyMsg ik, e)] = some m1 ∧
      Stored m1.db sp.ID "cancelled"
        (if m.phase = PhaseFocus then m.totalSeconds - m.remainingSeconds
          else sp.FocusMinutes * 60)
        (if m.phase = PhaseFocus then sp.ActualRestSeconds
          else m.totalSeconds - m.remainingSeconds) := by
  obtain ⟨m1, h1, hst1⟩ := Stored_saveCurrentState m e sp s hc hs hok hrow
  rcases hik with rfl | rfl | rfl | rfl
  · rcases hst with hst | hst <;>
      exact ⟨toFocusPrompt (refreshSessionData m1 e),
        by simp [run, Update, updateTimer, updatePaused, hst, h1],
        by rw [Stored_congr (congrArg DB.pomodoro_splits
          ((toFocusPrompt_db _).trans (refreshSessionData_db _ _)))]; exact hst1⟩
  · rcases hst with hst | hst <;>
      exact ⟨toFocusPrompt (refreshSessionData m1 e),
        by simp [run, Update, updateTimer, updatePaused, hst, h1],
        by rw [Stored_congr (congrArg DB.pomodoro_splits
          ((toFocusPrompt_db _).trans (refreshSessionData_db _ _)))]; exact hst1⟩
  · rcases hst with hst | hst <;>
      exact ⟨{ m1 with state := StateMainMenu },
        by simp [run, Update, updateTimer, updatePaused, hst, h1], hst1⟩
  · rcases hst with hst | hst <;>
      exact ⟨{ m1 with state := StateMainMenu },
        by simp [run, Update, updateTimer, updatePaused, hst, h1], hst1⟩

theorem run_interrupt (m : App) (msgs : List (Msg × Env)) (sp : PomodoroSplit) (s : Session)
    (hst : m.state = StateTimer) (hc : m.currentSplit = some sp) (hs : m.session = some s)
    (hi : IsInterrupt msgs) (hrow : ∃ row ∈ m.db.pomodoro_splits, row.ID = sp.ID) :
    ∃ m1, run m msgs = some m1 ∧
      Stored m1.db sp.ID "cancelled"
        (if m.phase = PhaseFocus then m.totalSeconds - m.remainingSeconds
          else sp.FocusMinutes * 60)
        (if m.phase = PhaseFocus then sp.ActualRestSeconds
          else m.totalSeconds - m.remainingSeconds) := by
  obtain ⟨pause, ik, e, rfl, hp, hik, hok⟩ := hi
  rcases hp with rfl | ⟨ep, rfl | rfl⟩
  · exact Update_interrupt m e sp s ik (Or.inl hst) hc hs hik hok hrow
  all_goals
    have h := Update_interrupt { m with state := StatePaused, isPaused := true } e sp s ik
      (Or.inr rfl) hc hs hik hok hrow
    obtain ⟨m1, h1, h2⟩ := h
    refine ⟨m1, ?_, h2⟩
    simpa [run, Update, updateTimer, hst] using h1

theorem Update_tick_rest_end (m : App) (e : Env) (sp : PomodoroSplit) (s : Session)
    (hs : m.state = StateTimer) (hp : m.isPaused = false) (hr : m.remainingSeconds ≤ 1)
    (hph : m.phase = PhaseRest) (hc : m.currentSplit = some sp) (hse : m.session = some s) :
    ∃ m2, Update m Msg.TickMsg e = some (m2, Cmd.Blink) ∧
      m2.state = StateTimerSetup ∧
      m2.currentSplit = some (completedSplit m sp e.now) ∧
      m2.db.pomodoro_splits =
        (UpdatePomodoroSplit m.db (completedSplit m sp e.now)
          (e.ok .updateSplit)).1.pomodoro_splits := by
  have h : m.remainingSeconds - 1 ≤ 0 := by omega
  simp only [Update, updateTick, hs, hp, h, hph, hc, hse, finishSplit]
  simp only [and_self, not_false_eq_true, Bool.false_eq_true, if_true, if_false, reduceCtorEq]
  cases hg : GetLastSession
      (UpdateSessionTotals
        (UpdatePomodoroSplit m.db (completedSplit m sp e.now) (e.ok .updateSplit)).1
        s.ID e.now (e.ok .updateTotals)).1 (e.ok .selectLastSession) with
  | error err =>
    simp only [completedSplit] at hg
    simp [hg, toFocusPrompt, playSound, completedSplit, UpdateSessionTotals_splits]
  | ok last =>
    simp only [completedSplit] at hg
    by_cases hl : last.ID = s.ID <;>
      simp [hg, hl, toFocusPrompt, playSound, completedSplit, UpdateSessionTotals_splits]

theorem run_rest_phase (envs : List Env) (sp : PomodoroSplit) (s : Session) (m : App)
    (hs : m.state = StateTimer) (hp : m.isPaused = false) (hph : m.phase = PhaseRest)
    (hc : m.currentSplit = some sp) (hse : m.session = some s)
    (hlen : (envs.length : Int) = max m.remainingSeconds 1)
    (hok : ∀ e ∈ envs, e.ok .updateSplit = true)
    (hrow : ∃ row ∈ m.db.pomodoro_splits, row.ID = sp.ID) :
    ∃ m2, run m (tickMsgs envs) = some m2 ∧
      m2.state = StateTimerSetup ∧
      (∃ t, m2.currentSplit = some (completedSplit m sp t)) ∧
      Stored m2.db sp.ID "completed" sp.ActualFocusSeconds m.totalSeconds := by
  obtain ⟨es, e, rfl⟩ : ∃ es e, envs = es ++ [e] := by
    rcases List.eq_nil_or_concat envs with h | ⟨es, e, h⟩
    · subst h; simp at hlen; omega
    · exact ⟨es, e, by simpa using h⟩
  simp only [List.length_append, List.length_singleton, Nat.cast_add, Nat.cast_one] at hlen
  have hoke : e.ok .updateSplit = true := hok e (by simp)
  have h1 : tickMsgs (es ++ [e]) = tickMsgs es ++ [(Msg.TickMsg, e)] := by simp [tickMsgs]
  have key : ∀ m0 : App, m0.state = StateTimer → m0.isPaused = false →
      m0.remainingSeconds ≤ 1 → m0.phase = PhaseRest → m0.currentSplit = some sp →
      m0.session = some s → m0.db = m.db → m0.totalSeconds = m.totalSeconds →
      ∃ m2, run m0 [(Msg.TickMsg, e)] = some m2 ∧
        m2.state = StateTimerSetup ∧
        (∃ t, m2.currentSplit = some (completedSplit m sp t)) ∧
        Stored m2.db sp.ID "completed" sp.ActualFocusSeconds m.totalSeconds := by
    intro m0 a1 a2 a3 a4 a5 a6 a7 a8
    obtain ⟨m2, g1, g2, g3, g4⟩ := Update_tick_rest_end m0 e sp s a1 a2 a3 a4 a5 a6
    refine ⟨m2, by simp [run, g1], g2, ⟨e.now, ?_⟩, ?_⟩
    · rw [g3]; simp [completedSplit, a8]
    · rw [Stored_congr g4, hoke, a7]
      have h := Stored_UpdatePomodoroSplit m.db (completedSplit m0 sp e.now) hrow
      simpa [completedSplit, a8] using h
  rw [h1]
  by_cases hrem : 1 ≤ m.remainingSeconds
  · rw [run_countdown es _ m hs hp (by omega)]
    exact key _ hs hp (by simp; omega) hph hc hse rfl rfl
  · have hes : es = [] := by
      apply List.eq_nil_of_length_eq_zero
      omega
    subst hes
    exact key m hs hp (by omega) hph hc hse rfl rfl

theorem startTimer_started (m : App) (env : Env) (s : Session) (f r : Int)
    (h : CanStart m env s f r) (hf : 0 < f) (hr : 0 ≤ r) :
    startTimer m env = some (started m env s f r, Cmd.Tick) := by
  obtain ⟨h1, h2, h3, h4, h5⟩ := h
  have hf1 : ¬ f ≤ 0 := by omega
  have hr1 : ¬ r < 0 := by omega
  simp [startTimer, h1, h2, h3, h4, h5, hf1, hr1, CreatePomodoroSplit, started, newSplit,
    tickCmd]

theorem started_row (m : App) (env : Env) (s : Session) (f r : Int) :
    ∃ row ∈ (started m env s f r).db.pomodoro_splits,
      row.ID = (newSplit m.db s.ID f r env.now).ID :=
  ⟨newSplit m.db s.ID f r env.now, by simp [started], rfl⟩

theorem tickMsgs_append (a b : List Env) : tickMsgs (a ++ b) = tickMsgs a ++ tickMsgs b := by
  simp [tickMsgs]

theorem split_at_length (envs : List Env) (a b : Int) (ha : 0 ≤ a) (hb : 0 ≤ b)
    (h : (envs.length : Int) = a + b) :
    ∃ e1 e2, envs = e1 ++ e2 ∧ (e1.length : Int) = a ∧ (e2.length : Int) = b := by
  refine ⟨envs.take a.toNat, envs.drop a.toNat, (List.take_append_drop _ _).symm, ?_, ?_⟩
  · rw [List.length_take]; omega
  · rw [List.length_drop]; omega

/-- C2.  For a plan with focus > 0 and rest >= 0, after `startTimer` the phase
is Focus; it is still Focus (and the controller Running) after each shorter run
of ticks, and after the `focus*60`-th tick it is Rest, with the actual focus
seconds `focus*60`, `totalSeconds = remainingSeconds = rest*60`, and the
controller still Running. -/
theorem focus_ticks_reach_rest_once (m : App) (env : Env) (s : Session) (f r : Int)
    (envs : List Env) (h : CanStart m env s f r) (hf : 0 < f) (hr : 0 ≤ r)
    (hlen : (envs.length : Int) = f * 60) :
    ∃ m1 m2 sp, startTimer m env = some (m1, Cmd.Tick) ∧ m1.phase = PhaseFocus ∧
      (∀ j : Fin envs.length, ∃ mj, run m1 (tickMsgs (envs.take j)) = some mj ∧
        mj.phase = PhaseFocus ∧ mj.state = StateTimer) ∧
      run m1 (tickMsgs envs) = some m2 ∧
      m2.phase = PhaseRest ∧ m2.state = StateTimer ∧ m2.isPaused = false ∧
      m2.currentSplit = some sp ∧ sp.ActualFocusSeconds = f * 60 ∧
      m2.totalSeconds = r * 60 ∧ m2.remainingSeconds = r * 60 := by
  refine ⟨started m env s f r, focusDone (started m env s f r) (newSplit m.db s.ID f r env.now),
    _, startTimer_started m env s f r h hf hr, rfl, ?_, ?_, rfl, rfl, rfl, rfl, rfl, rfl, rfl⟩
  · intro j
    have hj : ((envs.take j).length : Int) < (started m env s f r).remainingSeconds := by
      rw [List.length_take]
      have := j.isLt
      show _ < f * 60
      omega
    have := run_countdown (envs.take j) [] (started m env s f r) rfl rfl hj
    rw [List.append_nil] at this
    exact ⟨_, this, rfl, rfl⟩
  · have := run_focus_phase envs [] (newSplit m.db s.ID f r env.now) (started m env s f r)
      rfl rfl rfl rfl (by show 0 < f * 60; omega) hlen
    rw [List.append_nil] at this
    exact this

/-- C1, amended.  For a plan with focus > 0 and rest >= 0, `startTimer`
followed by exactly `focus*60 + max (rest*60) 1` ticks (that is
`focus*60 + rest*60` ticks when rest > 0 and one tick more when rest = 0), the
store accepting the write, leaves the split stored with status completed,
actual focus seconds `focus*60` and actual rest seconds `rest*60`, and the
controller in TimerSetup. -/
theorem full_run_completes (m : App) (env : Env) (s : Session) (f r : Int)
    (envs : List Env) (h : CanStart m env s f r) (hf : 0 < f) (hr : 0 ≤ r)
    (hlen : (envs.length : Int) = f * 60 + max (r * 60) 1)
    (hok : ∀ e ∈ envs, e.ok .updateSplit = true) :
    ∃ m1 m2 sp, startTimer m env = some (m1, Cmd.Tick) ∧
      run m1 (tickMsgs envs) = some m2 ∧
      m2.state = StateTimerSetup ∧
      m2.currentSplit = some sp ∧ sp.Status = "completed" ∧
      sp.ActualFocusSeconds = f * 60 ∧ sp.ActualRestSeconds = r * 60 ∧
      Stored m2.db sp.ID "completed" (f * 60) (r * 60) := by
  obtain ⟨e1, e2, rfl, hl1, hl2⟩ :=
    split_at_length envs (f * 60) (max (r * 60) 1) (by omega) (by omega) hlen
  have hfocus := run_focus_phase e1 (tickMsgs e2) (newSplit m.db s.ID f r env.now)
    (started m env s f r) rfl rfl rfl rfl (by show 0 < f * 60; omega) hl1
  obtain ⟨m2, g1, g2, ⟨t, g3⟩, g4⟩ := run_rest_phase e2
    { newSplit m.db s.ID f r env.now with ActualFocusSeconds := f * 60 } s
    (focusDone (started m env s f r) (newSplit m.db s.ID f r env.now))
    rfl rfl rfl rfl h.1 hl2 (fun e he => hok e (by simp [he]))
    (started_row m env s f r)
  refine ⟨started m env s f r, m2, _, startTimer_started m env s f r h hf hr, ?_, g2, g3,
    rfl, rfl, rfl, g4⟩
  rw [tickMsgs_append, hfocus]
  exact g1

/-- C3.  A split that has received `k` ticks in its current phase and is then
interrupted (back or menu key, directly or after the pause key) is stored as
cancelled: in the focus phase (`k < focus*60`) with actual focus seconds `k`
and actual rest seconds 0, in the rest phase (`k < rest*60`, after the
`focus*60` ticks of the focus phase) with actual focus seconds `focus*60` and
actual rest seconds `k`. -/
theorem interrupt_records_elapsed (m : App) (env : Env) (s : Session) (f r : Int)
    (inRest : Bool) (k : Nat) (envs : List Env) (msgs : List (Msg × Env))
    (h : CanStart m env s f r) (hf : 0 < f) (hr : 0 ≤ r)
    (hlen : (envs.length : Int) = if inRest then f * 60 + k else k)
    (hk : (k : Int) < if inRest then r * 60 else f * 60)
    (hi : IsInterrupt msgs) :
    ∃ m1 m2 sp, startTimer m env = some (m1, Cmd.Tick) ∧ m1.currentSplit = some sp ∧
      run m1 (tickMsgs envs ++ msgs) = some m2 ∧
      Stored m2.db sp.ID "cancelled" (if inRest then f * 60 else k)
        (if inRest then k else 0) := by
  cases inRest
  · simp only [Bool.false_eq_true, if_false] at hlen hk ⊢
    have hcd := run_countdown envs msgs (started m env s f r) rfl rfl
      (by show _ < f * 60; omega)
    obtain ⟨m2, g1, g2⟩ := run_interrupt
      { started m env s f r with
        remainingSeconds := (started m env s f r).remainingSeconds - envs.length }
      msgs (newSplit m.db s.ID f r env.now) s rfl rfl h.1 hi (started_row m env s f r)
    refine ⟨started m env s f r, m2, _, startTimer_started m env s f r h hf hr, rfl, ?_, ?_⟩
    · rw [hcd]; exact g1
    · have e1 : (started m env s f r).totalSeconds -
          ((started m env s f r).remainingSeconds - envs.length) = k := by
        show f * 60 - (f * 60 - envs.length) = k
        omega
      simpa [started, newSplit, e1, hlen] using g2
  · simp only [if_true] at hlen hk ⊢
    obtain ⟨e1, e2, rfl, hl1, hl2⟩ :=
      split_at_length envs (f * 60) k (by omega) (by omega) hlen
    have hfocus := run_focus_phase e1 (tickMsgs e2 ++ msgs) (newSplit m.db s.ID f r env.now)
      (started m env s f r) rfl rfl rfl rfl (by show 0 < f * 60; omega) hl1
    have hcd := run_countdown e2 msgs
      (focusDone (started m env s f r) (newSplit m.db s.ID f r env.now)) rfl rfl
      (by show _ < r * 60; omega)
    obtain ⟨m2, g1, g2⟩ := run_interrupt
      { focusDone (started m env s f r) (newSplit m.db s.ID f r env.now) with
        remainingSeconds :=
          (focusDone (started m env s f r) (newSplit m.db s.ID f r env.now)).remainingSeconds
            - e2.length }
      msgs { newSplit m.db s.ID f r env.now with ActualFocusSeconds := f * 60 } s
      rfl rfl h.1 hi (started_row m env s f r)
    refine ⟨started m env s f r, m2, _, startTimer_started m env s f r h hf hr, rfl, ?_, ?_⟩
    · rw [tickMsgs_append, List.append_assoc, hfocus, hcd]; exact g1
    · have e3 : r * 60 - (r * 60 - (e2.length : Int)) = k := by omega
      simpa [focusDone, playSound, started, newSplit, e3] using g2

theorem SetValue_empty (ti : TextInput) : (ti.SetValue "").Value = "" := by
  simp only [TextInput.SetValue, TextInput.Value]
  split
  · show String.mk (List.take ti.CharLimit []) = ""
    rw [List.take_nil]
  · rfl

theorem startTimer_bad_focus (m : App) (env : Env) (h : ¬ ValidFocus m.focusInput) :
    startTimer m env =
      some ({ m with inputStep := 0, textInput := ({ m.textInput with
        Placeholder := "Invalid focus time. Enter focus time in minutes..." }).SetValue "" },
        Cmd.Blink) := by
  unfold ValidFocus at h
  unfold startTimer
  split
  · rfl
  · rename_i f hf
    rw [hf] at h
    simp only [not_lt] at h
    simp [h]

theorem startTimer_bad_rest (m : App) (env : Env) (hf : ValidFocus m.focusInput)
    (h : ¬ ValidRest m.restInput) :
    startTimer m env =
      some ({ m with inputStep := 1, textInput := ({ m.textInput with
        Placeholder := "Invalid rest time. Enter rest time in minutes..." }).SetValue "" },
        Cmd.Blink) := by
  unfold ValidFocus at hf
  unfold ValidRest at h
  unfold startTimer
  split
  · rename_i hnone
    rw [hnone] at hf
    exact absurd hf id
  · rename_i f hsome
    rw [hsome] at hf
    simp only at hf
    have hf2 : ¬ f ≤ 0 := by omega
    simp only [hf2, if_false]
    split
    · rfl
    · rename_i r hr
      rw [hr] at h
      simp only [not_le] at h
      simp [h]

/-- C7, amended.  At the focus step the submitted text is stored without any
check and the controller moves to the rest step.  The check happens when the
rest text is submitted: if the pending focus text is not an integer > 0 the
controller goes back to the focus step, otherwise, the rest text not being an
integer >= 0, it stays at the rest step.  In all these cases the controller
stays in TimerSetup with an empty input, no split is created (the store and
the current split are untouched) and the pending texts are the submitted ones,
not defaults. -/
theorem setup_checks_on_rest_submit (m : App) (env : Env)
    (hst : m.state = StateTimerSetup)
    (hbad : m.inputStep = 0 ∨ ¬ ValidFocus m.focusInput ∨ ¬ ValidRest m.textInput.Value) :
    ∃ m1, Update m (Msg.KeyMsg "enter") env = some (m1, Cmd.Blink) ∧
      m1.state = StateTimerSetup ∧ m1.db = m.db ∧ m1.currentSplit = m.currentSplit ∧
      m1.textInput.Value = "" ∧
      m1.inputStep =
        (if m.inputStep = 0 then 1 else if ValidFocus m.focusInput then 1 else 0) ∧
      m1.focusInput = (if m.inputStep = 0 then m.textInput.Value else m.focusInput) ∧
      m1.restInput = (if m.inputStep = 0 then m.restInput else m.textInput.Value) := by
  have hkey : ¬ ("enter" = "ctrl+c" ∨ "enter" = "q") := by decide
  by_cases h0 : m.inputStep = 0
  · refine ⟨{ m with focusInput := m.textInput.Value, inputStep := 1,
                     textInput := ({ m.textInput with
                       Placeholder := "Enter rest time in minutes..." }).SetValue "" },
      ?_, hst, rfl, rfl, SetValue_empty _, ?_, ?_, ?_⟩
    · simp [Update, updateTimerSetup, hst, h0]
    · simp [h0]
    · simp [h0]
    · simp [h0]
  · have hbad2 : ¬ ValidFocus m.focusInput ∨ ¬ ValidRest m.textInput.Value := by
      rcases hbad with h | h
      · exact absurd h h0
      · exact h
    have hup : Update m (Msg.KeyMsg "enter") env =
        startTimer { m with restInput := m.textInput.Value } env := by
      simp [Update, updateTimerSetup, hst, h0]
    by_cases hvf : ValidFocus m.focusInput
    · have hvr : ¬ ValidRest m.textInput.Value := by
        rcases hbad2 with h | h
        · exact absurd hvf h
        · exact h
      refine ⟨_, hup.trans (startTimer_bad_rest _ env hvf hvr), hst, rfl, rfl,
        SetValue_empty _, ?_, ?_, ?_⟩
      · simp [h0, hvf]
      · simp [h0]
      · simp [h0]
    · refine ⟨_, hup.trans (startTimer_bad_focus _ env hvf), hst, rfl, rfl,
        SetValue_empty _, ?_, ?_, ?_⟩
      · simp [h0, hvf]
      · simp [h0]
      · simp [h0]

/-! ## The theorems at concrete inputs -/

theorem focus_ticks_reach_rest_once_witness :
    ∃ m1 m2 sp, startTimer (readyApp "1" "2") (okEnv 3 "") = some (m1, Cmd.Tick) ∧
      m1.phase = PhaseFocus ∧
      (∀ j : Fin (List.replicate 60 (okEnv 5 "")).length,
        ∃ mj, run m1 (tickMsgs ((List.replicate 60 (okEnv 5 "")).take j)) = some mj ∧
          mj.phase = PhaseFocus ∧ mj.state = StateTimer) ∧
      run m1 (tickMsgs (List.replicate 60 (okEnv 5 ""))) = some m2 ∧
      m2.phase = PhaseRest ∧ m2.state = StateTimer ∧ m2.isPaused = false ∧
      m2.currentSplit = some sp ∧ sp.ActualFocusSeconds = 1 * 60 ∧
      m2.totalSeconds = 2 * 60 ∧ m2.remainingSeconds = 2 * 60 :=
  focus_ticks_reach_rest_once (readyApp "1" "2") (okEnv 3 "") sampleSession 1 2
    (List.replicate 60 (okEnv 5 "")) (by decide) (by decide) (by decide) (by decide)

theorem full_run_completes_witness :
    ∃ m1 m2 sp, startTimer (readyApp "1" "0") (okEnv 3 "") = some (m1, Cmd.Tick) ∧
      run m1 (tickMsgs (List.replicate 61 (okEnv 5 ""))) = some m2 ∧
      m2.state = StateTimerSetup ∧
      m2.currentSplit = some sp ∧ sp.Status = "completed" ∧
      sp.ActualFocusSeconds = 1 * 60 ∧ sp.ActualRestSeconds = 0 * 60 ∧
      Stored m2.db sp.ID "completed" (1 * 60) (0 * 60) :=
  full_run_completes (readyApp "1" "0") (okEnv 3 "") sampleSession 1 0
    (List.replicate 61 (okEnv 5 "")) (by decide) (by decide) (by decide) (by decide)
    (fun e he => by rw [List.eq_of_mem_replicate he]; rfl)

theorem interrupt_records_elapsed_witness :
    ∃ m1 m2 sp, startTimer (readyApp "1" "1") (okEnv 3 "") = some (m1, Cmd.Tick) ∧
      m1.currentSplit = some sp ∧
      run m1 (tickMsgs (List.replicate 67 (okEnv 5 "")) ++
        [(Msg.KeyMsg "p", okEnv 6 ""), (Msg.KeyMsg "b", okEnv 7 "")]) = some m2 ∧
      Stored m2.db sp.ID "cancelled" (if true then 1 * 60 else ((7 : Nat) : Int))
        (if true then ((7 : Nat) : Int) else 0) :=
  interrupt_records_elapsed (readyApp "1" "1") (okEnv 3 "") sampleSession 1 1 true 7
    (List.replicate 67 (okEnv 5 "")) [(Msg.KeyMsg "p", okEnv 6 ""), (Msg.KeyMsg "b", okEnv 7 "")]
    (by decide) (by decide) (by decide) (by decide) (by decide)
    ⟨[(Msg.KeyMsg "p", okEnv 6 "")], "b", okEnv 7 "", rfl, Or.inr ⟨okEnv 6 "", Or.inl rfl⟩,
      Or.inl rfl, rfl⟩

theorem setup_checks_on_rest_submit_witness :
    ∃ m1, Update (readyApp "x" "") (Msg.KeyMsg "enter") (okEnv 3 "") = some (m1, Cmd.Blink) ∧
      m1.state = StateTimerSetup ∧ m1.db = (readyApp "x" "").db ∧
      m1.currentSplit = (readyApp "x" "").currentSplit ∧
      m1.textInput.Value = "" ∧
      m1.inputStep =
        (if (readyApp "x" "").inputStep = 0 then 1
          else if ValidFocus (readyApp "x" "").focusInput then 1 else 0) ∧
      m1.focusInput =
        (if (readyApp "x" "").inputStep = 0 then (readyApp "x" "").textInput.Value
          else (readyApp "x" "").focusInput) ∧
      m1.restInput =
        (if (readyApp "x" "").inputStep = 0 then (readyApp "x" "").restInput
          else (readyApp "x" "").textInput.Value) :=
  setup_checks_on_rest_submit (readyApp "x" "") (okEnv 3 "") (by decide)
    (Or.inr (Or.inl (by decide)))

/-! ## The session browser -/

theorem SelectionInRange_zero (m : App) (h : m.selectedSession = 0) : SelectionInRange m := by
  unfold SelectionInRange
  split
  · exact h
  · rename_i hne
    have : 0 < m.sessions.length := List.length_pos.mpr hne
    omega

theorem loadSessionBrowser_cases (m : App) (env : Env) :
    loadSessionBrowser m env = some (m, Cmd.Quit) ∨
    ∃ m1, loadSessionBrowser m env = some (m1, Cmd.nil) ∧
      m1.state = StateSessionBrowser ∧ m1.selectedSession = 0 := by
  unfold loadSessionBrowser
  cases GetAllSessions m.db (env.ok .selectAllSessions) with
  | error e => exact Or.inl rfl
  | ok l => exact Or.inr ⟨_, rfl, rfl, rfl⟩

theorem selected_get (m : App) (h : SelectionInRange m) (hne : m.sessions ≠ []) :
    0 ≤ m.selectedSession ∧ ∃ s, m.sessions.get? m.selectedSession.toNat = some s := by
  unfold SelectionInRange at h
  rw [if_neg hne] at h
  refine ⟨h.1, ?_⟩
  have hlt : m.selectedSession.toNat < m.sessions.length := by omega
  exact ⟨m.sessions.get ⟨_, hlt⟩, List.get?_eq_get hlt⟩

theorem browser_up (m : App) (env : Env) (key : String) (hk : key = "up" ∨ key = "k")
    (hst : m.state = StateSessionBrowser) (hin : SelectionInRange m) :
    ∃ m1 c, Update m (Msg.KeyMsg key) env = some (m1, c) ∧ m1.state = StateSessionBrowser ∧
      SelectionInRange m1 := by
  by_cases h : m.selectedSession > 0
  · refine ⟨{ m with selectedSession := m.selectedSession - 1 }, Cmd.nil, ?_, hst, ?_⟩
    · rcases hk with rfl | rfl <;> simp [Update, updateSessionBrowser, hst, h]
    · unfold SelectionInRange at hin ⊢
      simp only
      split
      · rename_i he; rw [if_pos he] at hin; omega
      · rename_i he; rw [if_neg he] at hin; omega
  · refine ⟨m, Cmd.nil, ?_, hst, hin⟩
    rcases hk with rfl | rfl <;> simp [Update, updateSessionBrowser, hst, h]

theorem browser_down (m : App) (env : Env) (key : String) (hk : key = "down" ∨ key = "j")
    (hst : m.state = StateSessionBrowser) (hin : SelectionInRange m) :
    ∃ m1 c, Update m (Msg.KeyMsg key) env = some (m1, c) ∧ m1.state = StateSessionBrowser ∧
      SelectionInRange m1 := by
  by_cases h : m.selectedSession < (m.sessions.length : Int) - 1
  · refine ⟨{ m with selectedSession := m.selectedSession + 1 }, Cmd.nil, ?_, hst, ?_⟩
    · rcases hk with rfl | rfl <;> simp [Update, updateSessionBrowser, hst, h]
    · unfold SelectionInRange at hin ⊢
      simp only
      split
      · rename_i he; rw [if_pos he] at hin
        rw [he] at h; simp at h; omega
      · rename_i he; rw [if_neg he] at hin; omega
  · refine ⟨m, Cmd.nil, ?_, hst, hin⟩
    rcases hk with rfl | rfl <;> simp [Update, updateSessionBrowser, hst, h]

theorem browser_delete (m : App) (env : Env) (key : String) (hk : key = "x" ∨ key = "X")
    (hst : m.state = StateSessionBrowser) (hin : SelectionInRange m) :
    ∃ m1 c, Update m (Msg.KeyMsg key) env = some (m1, c) ∧ m1.state = StateSessionBrowser ∧
      SelectionInRange m1 := by
  have hup : Update m (Msg.KeyMsg key) env = updateSessionBrowser m key env := by
    rcases hk with rfl | rfl <;> simp [Update, hst]
  rw [hup]
  by_cases h : m.sessions.length > 0
  · obtain ⟨h0, sel, hsel⟩ := selected_get m hin (List.length_pos.mp h)
    have h0n : ¬ m.selectedSession < 0 := by omega
    have hsel2 : m.sessions[m.selectedSession.toNat]? = some sel := by
      rw [← List.get?_eq_getElem?]; exact hsel
    have hrun : updateSessionBrowser m key env =
        match DeleteSession m.db sel.ID (env.ok .deleteSplits) (env.ok .deleteSession) with
        | (db1, some _) => some ({ m with db := db1 }, Cmd.nil)
        | (db1, none) => loadSessionBrowser { m with db := db1 } env := by
      rcases hk with rfl | rfl <;> simp [updateSessionBrowser, h, h0n, hsel2]
    rw [hrun]
    rcases hd : DeleteSession m.db sel.ID (env.ok .deleteSplits) (env.ok .deleteSession)
      with ⟨db1, _ | err⟩
    · simp only
      rcases loadSessionBrowser_cases { m with db := db1 } env with hq | ⟨m1, hl, hs1, hz⟩
      · exact ⟨_, _, hq, hst, hin⟩
      · exact ⟨m1, _, hl, hs1, SelectionInRange_zero m1 hz⟩
    · exact ⟨_, _, rfl, hst, hin⟩
  · refine ⟨m, Cmd.nil, ?_, hst, hin⟩
    rcases hk with rfl | rfl <;> simp [updateSessionBrowser, h]

theorem Update_browser_intent (m : App) (p : Msg × Env)
    (hst : m.state = StateSessionBrowser) (hin : SelectionInRange m)
    (hp : IsBrowserIntent p) :
    ∃ m1 c, Update m p.1 p.2 = some (m1, c) ∧ m1.state = StateSessionBrowser ∧
      SelectionInRange m1 := by
  obtain ⟨msg, env⟩ := p
  unfold IsBrowserIntent at hp
  simp only at hp
  rcases hp with rfl | rfl | rfl | rfl | rfl | rfl
  · exact browser_up m env _ (Or.inl rfl) hst hin
  · exact browser_up m env _ (Or.inr rfl) hst hin
  · exact browser_down m env _ (Or.inl rfl) hst hin
  · exact browser_down m env _ (Or.inr rfl) hst hin
  · exact browser_delete m env _ (Or.inl rfl) hst hin
  · exact browser_delete m env _ (Or.inr rfl) hst hin

theorem run_browser_intents (msgs : List (Msg × Env)) :
    ∀ m : App, m.state = StateSessionBrowser → SelectionInRange m →
      (∀ p ∈ msgs, IsBrowserIntent p) →
      ∃ m2, run m msgs = some m2 ∧ m2.state = StateSessionBrowser ∧ SelectionInRange m2 := by
  induction msgs with
  | nil => intro m hst hin _; exact ⟨m, rfl, hst, hin⟩
  | cons p ps ih =>
    intro m hst hin hall
    obtain ⟨m1, c, hu, hs1, hi1⟩ := Update_browser_intent m p hst hin (hall p (by simp))
    obtain ⟨m2, hr, hs2, hi2⟩ := ih m1 hs1 hi1 (fun q hq => hall q (by simp [hq]))
    obtain ⟨msg, env⟩ := p
    simp only at hu
    cases c
    case Quit => exact ⟨m1, by simp [run, hu], hs1, hi1⟩
    all_goals exact ⟨m2, by simp [run, hu, hr], hs2, hi2⟩

/-- C11.  After the browser has been loaded, whatever navigate-up,
navigate-down and delete-selected keys follow (and whatever the store answers),
no key panics, the controller is still in the browser, and the selection index
is 0 when the list is empty and between 0 and `len(sessions)-1` otherwise, so
that the session delete-selected reads at that index exists. -/
theorem browser_selection_in_range (m0 m1 : App) (env0 : Env) (msgs : List (Msg × Env))
    (hload : loadSessionBrowser m0 env0 = some (m1, Cmd.nil))
    (hmsgs : ∀ p ∈ msgs, IsBrowserIntent p) :
    ∃ m2, run m1 msgs = some m2 ∧ m2.state = StateSessionBrowser ∧
      SelectionInRange m2 ∧
      (m2.sessions = [] ∨
        0 ≤ m2.selectedSession ∧
          ∃ s, m2.sessions.get? m2.selectedSession.toNat = some s) := by
  have h1 : m1.state = StateSessionBrowser ∧ m1.selectedSession = 0 := by
    rcases loadSessionBrowser_cases m0 env0 with hq | ⟨m1b, hl, hs, hz⟩
    · rw [hq] at hload; simp at hload
    · rw [hl] at hload
      simp only [Option.some.injEq, Prod.mk.injEq, and_true] at hload
      subst hload; exact ⟨hs, hz⟩
  obtain ⟨m2, hr, hs2, hi2⟩ :=
    run_browser_intents msgs m1 h1.1 (SelectionInRange_zero m1 h1.2) hmsgs
  refine ⟨m2, hr, hs2, hi2, ?_⟩
  by_cases he : m2.sessions = []
  · exact Or.inl he
  · exact Or.inr (selected_get m2 hi2 he)

theorem browser_selection_in_range_witness :
    ∃ m2, run browserApp
        [key "down" "" 51, key "down" "" 52, key "x" "" 53, key "up" "" 54] = some m2 ∧
      m2.state = StateSessionBrowser ∧ SelectionInRange m2 ∧
      (m2.sessions = [] ∨
        0 ≤ m2.selectedSession ∧
          ∃ s, m2.sessions.get? m2.selectedSession.toNat = some s) :=
  browser_selection_in_range (NewApp sampleDB) browserApp (okEnv 50 "")
    [key "down" "" 51, key "down" "" 52, key "x" "" 53, key "up" "" 54] rfl (by decide)

/-! ## The tick timers -/

/-- C12 at its failing input: a started split has one timer pending; the pause
key and the resume key, both handled before that timer fires, leave two timers
pending with the controller running, and when both have fired (one second
later) `remainingSeconds` has gone down by 2 and two timers are pending again.
When the timer fires during the pause instead, the resume leaves one. -/
theorem resume_before_tick_leaves_two_timers :
    (runScheduled ⟨NewApp InitDB, 0⟩ (planKeys "1" "1")).map
        (fun s => (s.app.state, s.app.remainingSeconds, s.pending)) =
      some (StateTimer, 60, 1) ∧
    (runScheduled ⟨NewApp InitDB, 0⟩
        (planKeys "1" "1" ++ [key "p" "" 4, key "s" "" 4])).map
        (fun s => (s.app.state, s.app.isPaused, s.app.remainingSeconds, s.pending)) =
      some (StateTimer, false, 60, 2) ∧
    (runScheduled ⟨NewApp InitDB, 0⟩
        (planKeys "1" "1" ++ [key "p" "" 4, key "s" "" 4] ++ ticks 2 5)).map
        (fun s => (s.app.state, s.app.remainingSeconds, s.pending)) =
      some (StateTimer, 58, 2) ∧
    (runScheduled ⟨NewApp InitDB, 0⟩
        (planKeys "1" "1" ++ [key "p" "" 4] ++ ticks 1 5 ++ [key "s" "" 6])).map
        (fun s => (s.app.state, s.app.remainingSeconds, s.pending)) =
      some (StateTimer, 60, 1) :=
  ⟨rfl, rfl, rfl, rfl⟩

end Romodoro
